import Mathlib

/-!
Verification of the OceanGuard ingestion/classification/fusion pipeline.

This file gives a shallow embedding, in Lean 4, of the core components of the
backend (`services/nlp.py`, `services/credibility.py`, `services/dedupe.py`,
`services/fusion.py`, `services/ingest.py` and the admin validation hook in
`app.py`), and proves or refutes the frozen specification claims about them.

Modelling conventions:
* Python floats are modelled as exact rationals (`ℚ`) wherever the code only
  uses field operations and comparisons, and as reals (`ℝ`) where the code
  uses `math.log10`, `math.sqrt` or trigonometry.
* Python exceptions (`ValueError`, `ZeroDivisionError`, `AttributeError`) are
  modelled with `Except String`.
* Python regex tests in the credibility text-quality scorer are abstracted as
  boolean inputs (the results proved about them hold for every value of those
  booleans); everything else is translated operation by operation.
* Python `str.lower`/`\w` are modelled on ASCII via `Char.toLower` /
  `Char.isAlphanum`.
-/

namespace OceanGuard

/-! ## Basic string helpers (Python `str.count`, `in`, `split`, `strip`) -/

/-- `charsPrefix p s` is true when the char list `p` is an initial segment of `s`. -/
def charsPrefix : List Char → List Char → Bool
  | [], _ => true
  | _ :: _, [] => false
  | a :: as, b :: bs => a == b && charsPrefix as bs

/-- Fuelled worker for non-overlapping substring counting. -/
def countOccFuel (pat : List Char) : Nat → List Char → Nat
  | 0, _ => 0
  | fuel + 1, s =>
    if charsPrefix pat s then 1 + countOccFuel pat fuel (s.drop pat.length)
    else
      match s with
      | [] => 0
      | _ :: t => countOccFuel pat fuel t

/-- Python `s.count(pat)`: number of non-overlapping occurrences of `pat` in `s`. -/
def strCount (s pat : String) : Nat :=
  countOccFuel pat.toList (s.toList.length + 1) s.toList

/-- Substring containment on char lists. -/
def containsSub (pat : List Char) : List Char → Bool
  | [] => charsPrefix pat []
  | c :: t => charsPrefix pat (c :: t) || containsSub pat t

/-- Python `pat in s` (substring containment). -/
def strContains (s pat : String) : Bool :=
  containsSub pat.toList s.toList

/-- Python whitespace for `str.split()` / `\s`. -/
def isSpaceChar (c : Char) : Bool :=
  c == ' ' || c == '\t' || c == '\n' || c == '\r'

/-- Worker for whitespace splitting, accumulating the current token reversed. -/
def splitWsAux : List Char → List Char → List (List Char)
  | acc, [] => if acc.isEmpty then [] else [acc.reverse]
  | acc, c :: t =>
    if isSpaceChar c then
      if acc.isEmpty then splitWsAux [] t else acc.reverse :: splitWsAux [] t
    else splitWsAux (c :: acc) t

/-- Python `s.split()`: split on whitespace runs, dropping empty tokens. -/
def pySplit (s : String) : List String :=
  (splitWsAux [] s.toList).map List.asString

/-- Python `s.lower()` (ASCII). -/
def pyLower (s : String) : String :=
  (s.toList.map Char.toLower).asString

/-- Python `round`: round half to even (banker's rounding). -/
def pyRound (q : ℚ) : ℤ :=
  let f : ℤ := ⌊q⌋
  let frac : ℚ := q - f
  if frac < 1/2 then f
  else if 1/2 < frac then f + 1
  else if Even f then f else f + 1

/-- Python `min` on rationals, reducible by the kernel. -/
def qmin (a b : ℚ) : ℚ := if a ≤ b then a else b

/-- Python `max` on rationals, reducible by the kernel. -/
def qmax (a b : ℚ) : ℚ := if a ≤ b then b else a

/-- Python `min` on integers, reducible by the kernel. -/
def zmin (a b : ℤ) : ℤ := if a ≤ b then a else b

/-- Arithmetic mean of a rational list (callers guarantee nonemptiness). -/
def listMean (l : List ℚ) : ℚ := l.sum / l.length

/-! ## NLP classifier (`services/nlp.py`) -/

/-- Result record of `NLPProcessor.classify_text`. -/
structure NLPResult where
  hazard_type : String
  confidence : ℚ
  severity_boost : ℤ
  keywords_found : List String
  deriving Repr, DecidableEq

/-- `NLPProcessor.hazard_keywords`, in Python dict insertion order. -/
def hazardKeywords : List (String × List String) :=
  [ ("flood",
      ["flood", "flooding", "water level", "overflow", "inundation", "waterlogged",
       "submerg", "drain", "sewage", "rain", "monsoon", "deluge", "torrent",
       "heavy rain", "downpour", "cloudburst", "river overflow", "flash flood",
       "urban flooding", "street flooding", "water rising", "high water",
       "baarish", "paani", "sel", "jal", "baadh"]),
    ("tsunami",
      ["tsunami", "tidal wave", "sea surge", "ocean wave", "seismic wave",
       "underwater earthquake", "sea level rise", "giant wave", "wall of water",
       "abnormal wave", "huge wave", "tidal surge", "sea wall", "marine surge",
       "oceanic wave", "mega wave", "killer wave", "harbor wave",
       "sunami", "samudri lahar", "samudri toofan"]),
    ("tides",
      ["high tide", "low tide", "tidal surge", "tidal flooding", "abnormal tide",
       "spring tide", "neap tide", "tide level", "tidal bore", "tidal wave",
       "unusual tide", "extreme tide", "king tide", "storm tide", "tidal current",
       "tide height", "tidal inundation", "coastal surge", "tidal overflow",
       "jowar", "bhata", "samudri lehren"]),
    ("earthquake",
      ["earthquake", "tremor", "quake", "seismic", "ground shaking", "earth tremor",
       "shaking", "vibration", "ground movement", "fault", "epicenter", "aftershock",
       "richter", "magnitude", "building shake", "ground shake", "seismic activity",
       "tectonic", "trembling", "earth movement", "foreshock", "mainshock",
       "bhukamp", "zameen hilna", "kampan", "dharti hilna"]),
    ("landslide",
      ["landslide", "landslip", "mudslide", "rockslide", "slope failure",
       "mass wasting", "debris flow", "rock fall", "cliff collapse", "soil erosion",
       "hill collapse", "mountain slide", "embankment failure", "slope instability",
       "avalanche", "mudflow", "earth movement", "ground collapse", "subsidence",
       "bhooskalan", "pahad girna", "mitti ka khisakna", "zameen dhansna"]) ]

/-- `NLPProcessor.severity_keywords['high']`. -/
def severityHigh : List String :=
  ["emergency", "urgent", "critical", "severe", "dangerous", "trapped",
   "injured", "casualties", "death", "rescue", "evacuate", "siren"]

/-- `NLPProcessor.severity_keywords['medium']`. -/
def severityMedium : List String :=
  ["warning", "alert", "caution", "moderate", "rising", "increasing"]

/-- `NLPProcessor.stopwords`, english and hindi lists merged. -/
def stopwords : List String :=
  ["the", "a", "an", "and", "or", "but", "in", "on", "at", "to", "for",
   "of", "with", "by", "is", "are", "was", "were", "be", "been", "have",
   "has", "had", "do", "does", "did", "will", "would", "could", "should",
   "aur", "ka", "ki", "ke", "mein", "se", "par", "ko", "hai", "hain", "tha", "thi"]

/-- Python `\w` character class (ASCII model). -/
def isWordChar (c : Char) : Bool := c.isAlphanum || c == '_'

/-- `NLPProcessor.preprocess_text`: lowercase, replace characters outside
`[^\w\s\-\.]` with spaces, split on whitespace, drop stopwords and tokens of
length at most 2, re-join with single spaces. -/
def preprocessText (text : String) : String :=
  let lowered := text.toList.map Char.toLower
  let replaced := lowered.map fun c =>
    if isWordChar c || isSpaceChar c || c == '-' || c == '.' then c else ' '
  let words := (splitWsAux [] replaced).map List.asString
  let filtered := words.filter fun w => !(stopwords.contains w) && w.length > 2
  String.intercalate " " filtered

/-- Per-kind keyword scoring loop of `extract_hazard_type`: returns
`(score, found_keywords)` for one keyword list. -/
def kindScore (pre : String) (keywords : List String) : Nat × List String :=
  keywords.foldl
    (fun st kw =>
      let exact := strCount pre kw
      if exact > 0 then (st.1 + exact * 2, st.2 ++ [kw])
      else if strContains pre kw then (st.1 + 1, st.2 ++ [kw])
      else st)
    (0, [])

/-- Python `max(d, key=d.get)` over an association list in insertion order:
the first key attaining the maximal value wins. -/
def argmaxFirst (l : List (String × ℚ)) : String :=
  match l with
  | [] => "unknown"
  | (k, v) :: rest =>
    (rest.foldl (fun best kv => if kv.2 > best.2 then kv else best) (k, v)).1

/-- Natural-number variant of `argmaxFirst` for the keyword scores. -/
def argmaxFirstNat (l : List (String × Nat)) : String :=
  match l with
  | [] => "unknown"
  | (k, v) :: rest =>
    (rest.foldl (fun best kv => if kv.2 > best.2 then kv else best) (k, v)).1

/-- The `hazard_scores` dict of `extract_hazard_type`: kinds with positive
score, in keyword-table order, with their found-keyword lists. -/
def hazardScores (text : String) : List (String × Nat × List String) :=
  let pre := preprocessText text
  (hazardKeywords.map fun kv => (kv.1, kindScore pre kv.2)).filter
    fun e => e.2.1 > 0

/-- `NLPProcessor.extract_hazard_type`: returns `(kind, base confidence,
found keywords)`. -/
def extractHazardType (text : String) : String × ℚ × List String :=
  let scores := hazardScores text
  match scores with
  | [] => ("unknown", 0.3, [])
  | _ =>
    let best := argmaxFirstNat (scores.map fun e => (e.1, e.2.1))
    let maxScore := match scores.find? fun e => e.1 == best with
      | some e => e.2.1
      | none => 0
    let confidence := qmin (0.4 + (maxScore : ℚ) * 0.05) 0.7
    let found := match scores.find? fun e => e.1 == best with
      | some e => e.2.2
      | none => []
    (best, confidence, found)

/-- `NLPProcessor.extract_severity_boost`. -/
def extractSeverityBoost (text : String) : ℤ :=
  let pre := preprocessText text
  let boost : ℤ :=
    (if severityHigh.any fun kw => strContains pre kw then 2 else 0) +
    (if severityMedium.any fun kw => strContains pre kw then 1 else 0)
  zmin boost 2

/-- `NLPProcessor._apply_progressive_confidence`: scale base confidence by a
per-source factor, then clamp only for the `citizen`/`social_media`/`incois`
branches. -/
def applyProgressiveConfidence (baseConfidence : ℚ) (source : String) : ℚ :=
  let src := pyLower source
  let scalingFactor : ℚ :=
    if src == "citizen" then 0.25
    else if src == "social_media" then 0.20
    else if src == "incois" then 0.80
    else if src == "lora_sos" then 0.95
    else 0.25
  let scaled := baseConfidence * scalingFactor
  if src == "citizen" || src == "social_media" then qmax 0.08 (qmin 0.35 scaled)
  else if src == "incois" then qmax 0.50 (qmin 0.85 scaled)
  else scaled

/-- `NLPProcessor._apply_media_verification_boost`. -/
def applyMediaVerificationBoost (baseConfidence : ℚ) (hasMedia mediaVerified : Bool) : ℚ :=
  if !hasMedia then baseConfidence
  else if mediaVerified then qmin 0.95 (baseConfidence + 0.6)
  else qmin 0.7 (baseConfidence + 0.15)

/-- `NLPProcessor.classify_text`. -/
def classifyText (text source : String) (hasMedia mediaVerified : Bool) : NLPResult :=
  if text.toList.all isSpaceChar then
    { hazard_type := "unknown", confidence := 0.1, severity_boost := 0,
      keywords_found := [] }
  else
    let e := extractHazardType text
    let confidence := applyProgressiveConfidence e.2.1 source
    let confidence := applyMediaVerificationBoost confidence hasMedia mediaVerified
    { hazard_type := e.1, confidence := confidence,
      severity_boost := extractSeverityBoost text, keywords_found := e.2.2 }

/-! ## Credibility scorer (`services/credibility.py`) -/

/-- Python `max` on integers. -/
def zmax (a b : ℤ) : ℤ := if a ≤ b then b else a

/-- Python `s.strip()` truthiness: the stripped string is nonempty iff some
character is not whitespace. -/
def hasNonSpace (s : String) : Bool := s.toList.any fun c => !isSpaceChar c

/-- Python `s.strip()`. -/
def pyStrip (s : String) : String :=
  (((s.toList.dropWhile fun c => isSpaceChar c).reverse.dropWhile fun c =>
      isSpaceChar c).reverse).asString

/-- The six per-feature scores of `CredibilityScorer.calculate_credibility`. -/
structure FeatureScores where
  source_reliability : ℚ
  has_media : ℚ
  gps_accuracy : ℚ
  text_quality : ℚ
  temporal_consistency : ℚ
  past_accuracy : ℚ
  deriving Repr, DecidableEq

/-- Result record of `CredibilityScorer.calculate_credibility`. -/
structure CredibilityResult where
  score : ℚ
  features : FeatureScores
  deriving Repr, DecidableEq

/-- `CredibilityScorer.score_source_reliability` (an empty source string is
falsy in Python and becomes `'unknown'`, which hits the 0.3 default). -/
def scoreSourceReliability (source : String) : ℚ :=
  let src := if source.isEmpty then "unknown" else pyLower source
  if src == "incois" then 1.0
  else if src == "lora" then 0.95
  else if src == "citizen" then 0.6
  else if src == "social" then 0.4
  else 0.3

/-- `CredibilityScorer.score_media_presence`. -/
def scoreMediaPresence (mediaPath : Option String) : ℚ :=
  match mediaPath with
  | some p => if hasNonSpace p then 0.8 else 0.2
  | none => 0.2

/-- `CredibilityScorer.score_gps_accuracy`. The decimal precision of the
Python `str(float)` representation is abstracted as the inputs `latPrec` and
`lonPrec`; the bounds proved below hold for every value of them. -/
def scoreGpsAccuracy (lat lon : ℚ) (latPrec lonPrec : ℕ)
    (gpsAccuracy : Option ℚ) : ℚ :=
  if !(decide (-90 ≤ lat) && decide (lat ≤ 90) && decide (-180 ≤ lon) &&
      decide (lon ≤ 180)) then 0.0
  else if latPrec > 8 || lonPrec > 8 then 0.3
  else if latPrec < 2 || lonPrec < 2 then 0.4
  else
    match gpsAccuracy with
    | some acc =>
      if acc ≤ 20 then 1.0
      else if acc ≤ 50 then 0.8
      else if acc ≤ 100 then 0.6
      else 0.3
    | none => 0.7

/-- `CredibilityScorer.score_text_quality`. The four spam-pattern and four
info-pattern regex tests are abstracted as boolean inputs; the bounds proved
below hold for every value of them. -/
def scoreTextQuality (text : String) (spamMatches infoMatches : List Bool) : ℚ :=
  if !hasNonSpace text then 0.0
  else
    let text := pyStrip text
    let textLength := text.toList.length
    let wordCount := (pySplit text).length
    let lengthScore : ℚ :=
      if textLength > 500 then 0.6
      else if textLength ≥ 100 then 0.9
      else if textLength ≥ 50 then 0.7
      else if textLength ≥ 30 then 0.5
      else 0.0
    let uniqueWords := ((pySplit (pyLower text)).dedup).length
    let diversityScore := qmin ((uniqueWords : ℚ) / ((max wordCount 1 : ℕ) : ℚ)) 1.0
    let spamPenalty : ℚ := 0.1 * ((spamMatches.filter id).length : ℚ)
    let infoBonus : ℚ := 0.05 * ((infoMatches.filter id).length : ℚ)
    qmin (qmax (lengthScore * 0.6 + diversityScore * 0.4 + infoBonus - spamPenalty) 0.0) 1.0

/-- `CredibilityScorer.score_temporal_consistency`, with datetimes modelled as
UTC seconds. -/
def scoreTemporalConsistency (now : ℚ) (timestamp : Option ℚ) : ℚ :=
  match timestamp with
  | none => 0.5
  | some ts =>
    let timeDiff := |now - ts|
    if now < ts then 0.1
    else if timeDiff ≤ 3600 then 1.0
    else if timeDiff ≤ 86400 then 0.9
    else if timeDiff ≤ 604800 then 0.7
    else if timeDiff ≤ 2592000 then 0.4
    else 0.2

/-- `CredibilityScorer.score_past_accuracy` (reserved; constant 0.5). -/
def scorePastAccuracy : ℚ := 0.5

/-- `CredibilityScorer.calculate_credibility`: the weighted feature average
with weights 0.4/0.15/0.15/0.15/0.1/0.05. -/
def calculateCredibility (source text : String) (lat lon : ℚ)
    (latPrec lonPrec : ℕ) (now : ℚ) (timestamp : Option ℚ)
    (mediaPath : Option String) (gpsAccuracy : Option ℚ)
    (spamMatches infoMatches : List Bool) : CredibilityResult :=
  let features : FeatureScores :=
    { source_reliability := scoreSourceReliability source
      has_media := scoreMediaPresence mediaPath
      gps_accuracy := scoreGpsAccuracy lat lon latPrec lonPrec gpsAccuracy
      text_quality := scoreTextQuality text spamMatches infoMatches
      temporal_consistency := scoreTemporalConsistency now timestamp
      past_accuracy := scorePastAccuracy }
  let totalScore : ℚ :=
    features.source_reliability * 0.4 + features.has_media * 0.15 +
    features.gps_accuracy * 0.15 + features.text_quality * 0.15 +
    features.temporal_consistency * 0.1 + features.past_accuracy * 0.05
  let totalWeight : ℚ := 0.4 + 0.15 + 0.15 + 0.15 + 0.1 + 0.05
  let finalScore := if 0 < totalWeight then totalScore / totalWeight else 0.0
  { score := finalScore, features := features }

/-! ## Deduplication engine (`services/dedupe.py`) -/

/-- A report as consumed by `DeduplicationEngine.combined_similarity`:
coordinates in degrees, timestamp as optional UTC seconds, free text. -/
structure DedupReport where
  lat : ℚ
  lon : ℚ
  timestamp : Option ℚ
  text : String

/-- Python `math.radians`. -/
noncomputable def radians (deg : ℝ) : ℝ := deg * Real.pi / 180

/-- `DeduplicationEngine.haversine_distance` (kilometres). -/
noncomputable def haversineDistance (lat1 lon1 lat2 lon2 : ℝ) : ℝ :=
  let lat1r := radians lat1
  let lon1r := radians lon1
  let lat2r := radians lat2
  let lon2r := radians lon2
  let dlat := lat2r - lat1r
  let dlon := lon2r - lon1r
  let a := Real.sin (dlat / 2) ^ 2 +
    Real.cos lat1r * Real.cos lat2r * Real.sin (dlon / 2) ^ 2
  let c := 2 * Real.arcsin (Real.sqrt a)
  6371 * c

open Classical in
/-- `DeduplicationEngine.spatial_similarity`. -/
noncomputable def spatialSimilarity (lat1 lon1 lat2 lon2 : ℝ) : ℝ :=
  let distanceKm := haversineDistance lat1 lon1 lat2 lon2
  if distanceKm > 5 then 0
  else max 0 (1 - distanceKm / 5)

/-- `DeduplicationEngine.temporal_similarity` (timestamps in UTC seconds;
`none` models a missing timestamp). -/
def temporalSimilarity (time1 time2 : Option ℚ) : ℚ :=
  match time1, time2 with
  | some t1, some t2 =>
    let timeDiffMinutes := |t2 - t1| / 60
    if timeDiffMinutes > 30 then 0
    else qmax 0 (1 - timeDiffMinutes / 30)
  | _, _ => 0.5

/-- `DeduplicationEngine._tokenize`: delete punctuation (characters outside
`\w` and whitespace), split on whitespace, keep tokens longer than 2. -/
def dedupeTokenize (text : String) : List String :=
  let kept := text.toList.filter fun c => isWordChar c || isSpaceChar c
  let tokens := (splitWsAux [] kept).map List.asString
  tokens.filter fun t => t.length > 2

/-- `DeduplicationEngine.jaccard_similarity` on the two normalised token
sets. -/
def jaccardSimilarity (text1 text2 : String) : ℚ :=
  if text1.isEmpty || text2.isEmpty then 0
  else
    let tokens1 := (dedupeTokenize (pyLower text1)).toFinset
    let tokens2 := (dedupeTokenize (pyLower text2)).toFinset
    if tokens1 = ∅ ∧ tokens2 = ∅ then 1
    else if tokens1 = ∅ ∨ tokens2 = ∅ then 0
    else
      let inter := (tokens1 ∩ tokens2).card
      let union := (tokens1 ∪ tokens2).card
      if union > 0 then (inter : ℚ) / (union : ℚ) else 0

/-- `DeduplicationEngine.combined_similarity`:
`0.4·spatial + 0.3·temporal + 0.3·textual`. -/
noncomputable def combinedSimilarity (report1 report2 : DedupReport) : ℝ :=
  let spatialSim := spatialSimilarity report1.lat report1.lon report2.lat report2.lon
  let temporalSim := temporalSimilarity report1.timestamp report2.timestamp
  let textualSim := jaccardSimilarity report1.text report2.text
  spatialSim * 0.4 + (temporalSim : ℝ) * 0.3 + (textualSim : ℝ) * 0.3

/-! ## Fusion engine (`services/fusion.py`)

Reports reaching the fusion engine are the dicts built in
`ProcessingPipeline._process_group_fusion`; every key used by the fusion code
is present there, so the `dict.get` defaults are modelled by plain fields.
The optional `severity` key (INCOIS bulletins) is an `Option`. -/

structure FReport where
  id : ℕ
  source : String
  text : String
  lat : ℚ
  lon : ℚ
  timestamp : Option ℚ
  nlp_type : String
  nlp_conf : ℚ
  credibility : ℚ
  has_media : Bool
  media_verified : Bool
  keywords_found : List String
  severity_boost : ℤ
  severity : Option ℤ

/-- `FusionEngine.source_weights` with its 0.3 default. -/
def fusionSourceWeight (source : String) : ℚ :=
  if source == "incois" then 0.9
  else if source == "lora" then 0.95
  else if source == "citizen" then 0.6
  else if source == "social" then 0.4
  else 0.3

/-- `FusionEngine.hazard_priorities` with its 0.3 default. -/
def hazardPriority (hazardType : String) : ℚ :=
  if hazardType == "emergency" then 1.0
  else if hazardType == "tsunami" then 0.95
  else if hazardType == "earthquake" then 0.9
  else if hazardType == "landslide" then 0.85
  else if hazardType == "flood" then 0.8
  else if hazardType == "tides" then 0.7
  else if hazardType == "unknown" then 0.3
  else 0.3

/-- Per-report confidence with the media-verification boost of
`calculate_weighted_confidence`. -/
def mediaBoostedConfidence (r : FReport) : ℚ :=
  let base := r.nlp_conf * r.credibility
  if r.has_media && r.media_verified then qmin 0.95 (base + 0.4)
  else if r.has_media then qmin 0.7 (base + 0.15)
  else base

/-- Insert one value under a key of an association list, preserving Python
dict insertion order. -/
def addToGroups (gs : List (String × List ℚ)) (s : String) (c : ℚ) :
    List (String × List ℚ) :=
  match gs with
  | [] => [(s, [c])]
  | (k, l) :: rest =>
    if k == s then (k, l ++ [c]) :: rest else (k, l) :: addToGroups rest s c

/-- The `source_groups` dict of `calculate_weighted_confidence`: lowercased
source ↦ list of media-boosted per-report confidences, in arrival order. -/
def groupBySource (reports : List FReport) : List (String × List ℚ) :=
  reports.foldl (fun gs r => addToGroups gs (pyLower r.source) (mediaBoostedConfidence r)) []

/-- `(total_media_count, verified_media_count)` of
`calculate_weighted_confidence`. -/
def mediaCounts (reports : List FReport) : ℕ × ℕ :=
  ((reports.filter fun r => r.has_media).length,
   (reports.filter fun r => r.has_media && r.media_verified).length)

/-- `FusionEngine._calculate_volume_factor`. -/
noncomputable def volumeFactor (volume : ℕ) (source : String) : ℝ :=
  if volume = 0 then 0
  else if source == "incois" || source == "lora" then
    min 1 (0.8 + 0.1 * Real.logb 10 (volume + 1))
  else if source == "citizen" then
    min 0.95 (0.25 + 0.25 * Real.logb 10 (volume + 1) +
      min 0.45 (0.1 * Real.sqrt ((volume : ℝ) / 10)))
  else if source == "social" then
    min 0.8 (0.15 + 0.2 * Real.logb 10 (volume + 1) +
      min 0.35 (0.08 * Real.sqrt ((volume : ℝ) / 5)))
  else
    min 0.5 (0.1 + 0.15 * Real.logb 10 (volume + 1))

/-- `FusionEngine._calculate_source_diversity_boost`. The `num_sources = 0`
case is unreachable (the caller returns earlier on an empty report list) and
is modelled as the un-assigned value 0. -/
def diversityBoost (uniqueSources : List String) (numSources : ℕ) : ℚ :=
  if numSources = 1 then 1
  else
    let boost : ℚ :=
      if numSources = 2 then 1.5
      else if numSources = 3 then 2.0
      else if numSources ≥ 4 then 2.5
      else 0
    let boost := boost +
      (if uniqueSources.contains "incois" && uniqueSources.contains "citizen"
        then 0.3 else 0) +
      (if uniqueSources.contains "incois" && uniqueSources.contains "lora"
        then 0.4 else 0) +
      (if uniqueSources.contains "lora" && uniqueSources.contains "citizen"
        then 0.2 else 0)
    qmin 3.0 boost

/-- `FusionEngine._calculate_media_evidence_boost`. -/
def mediaEvidenceBoost (verifiedMediaCount totalMediaCount : ℕ) : ℚ :=
  if totalMediaCount = 0 then 1
  else
    let verificationBoost : ℚ :=
      1 + (verifiedMediaCount : ℚ) / (totalMediaCount : ℚ) * 0.5
    let volumeBoost : ℚ :=
      if verifiedMediaCount ≥ 3 then 1.3
      else if verifiedMediaCount ≥ 2 then 1.2
      else 1.0
    qmin 2.5 (1.2 * verificationBoost * volumeBoost)

open Classical in
/-- `FusionEngine.calculate_weighted_confidence`. -/
noncomputable def calcWeightedConfidence (reports : List FReport) : ℝ :=
  if reports.isEmpty then 0
  else
    let groups := groupBySource reports
    let totalConfidence : ℝ :=
      (groups.map fun g =>
        (listMean g.2 : ℝ) * volumeFactor g.2.length g.1 *
          (fusionSourceWeight g.1 : ℝ)).sum
    let totalWeight : ℚ := (groups.map fun g => fusionSourceWeight g.1).sum
    let baseConfidence : ℝ :=
      if 0 < totalWeight then totalConfidence / (totalWeight : ℝ) else 0
    let counts := mediaCounts reports
    let sourceDiversityBoost := diversityBoost (groups.map Prod.fst) groups.length
    let mediaBoost := mediaEvidenceBoost counts.2 counts.1
    let maxConfidence : ℝ := if 0 < counts.2 then 0.98 else 0.95
    min maxConfidence (baseConfidence * (sourceDiversityBoost : ℝ) * (mediaBoost : ℝ))

/-- Add one weighted vote to the `hazard_votes` dict (insertion order). -/
def addVote (votes : List (String × ℚ)) (k : String) (w : ℚ) : List (String × ℚ) :=
  match votes with
  | [] => [(k, w)]
  | (k0, w0) :: rest =>
    if k0 == k then (k0, w0 + w) :: rest else (k0, w0) :: addVote rest k w

/-- The vote weight of one report in `determine_consensus_hazard_type`:
`source_weight · nlp_conf · credibility`. -/
def voteWeight (r : FReport) : ℚ :=
  fusionSourceWeight (pyLower r.source) * r.nlp_conf * r.credibility

/-- The `hazard_votes` dict of `determine_consensus_hazard_type`. -/
def buildVotes (reports : List FReport) : List (String × ℚ) :=
  reports.foldl (fun votes r => addVote votes r.nlp_type (voteWeight r)) []

/-- `FusionEngine.determine_consensus_hazard_type`. Python's
`max(votes, key=votes.get)` returns the first key attaining the maximum in
dict insertion order. -/
def determineConsensusHazardType (reports : List FReport) : String :=
  if reports.isEmpty then "unknown"
  else
    let votes := buildVotes reports
    match votes with
    | [] => "unknown"
    | _ => argmaxFirst votes

/-- `FusionEngine.calculate_weighted_severity`. The division by
`sum(weights)` raises `ZeroDivisionError` when every weight
`source_weight · credibility` is zero. -/
def calcWeightedSeverity (reports : List FReport) : Except String ℤ :=
  if reports.isEmpty then .ok 1
  else
    let entries := reports.map fun r =>
      let baseSeverity : ℤ :=
        if r.source == "incois" then
          match r.severity with
          | some s => s
          | none => 3
        else 3
      let severity := zmin (baseSeverity + r.severity_boost) 5
      let weight := fusionSourceWeight (pyLower r.source) * r.credibility
      (severity, weight)
    let weightSum : ℚ := (entries.map Prod.snd).sum
    if weightSum = 0 then .error "ZeroDivisionError: division by zero"
    else
      let weightedAvg : ℚ :=
        (entries.map fun e => (e.1 : ℚ) * e.2).sum / weightSum
      .ok (zmax 1 (zmin 5 (pyRound weightedAvg)))

/-- `FusionEngine.calculate_centroid`. -/
def calcCentroid (reports : List FReport) : ℚ × ℚ :=
  if reports.isEmpty then (0, 0)
  else
    let weighted := reports.map fun r =>
      let weight := fusionSourceWeight (pyLower r.source) * r.credibility
      (r.lat * weight, r.lon * weight, weight)
    let totalWeight := (weighted.map fun e => e.2.2).sum
    if 0 < totalWeight then
      ((weighted.map fun e => e.1).sum / totalWeight,
       (weighted.map fun e => e.2.1).sum / totalWeight)
    else
      ((reports.map fun r => r.lat).sum / reports.length,
       (reports.map fun r => r.lon).sum / reports.length)

open Classical in
/-- `FusionEngine.determine_status`. Thresholds: emergency 0.9, auto-alert
0.85, review-required 0.3. -/
noncomputable def determineStatus (confidence : ℝ) (hazardType : String)
    (hasLora : Bool) : String :=
  if hasLora || hazardType == "emergency" then "emergency"
  else if 0.9 ≤ confidence then
    if hazardType == "tsunami" || hazardType == "earthquake" then "emergency"
    else "confirmed"
  else if 0.85 ≤ confidence then "confirmed"
  else if 0.3 ≤ confidence then "pending"
  else "review"

/-- `FusionEngine.calculate_priority_score`. -/
noncomputable def calcPriorityScore (hazardType : String) (confidence : ℝ)
    (severity : ℤ) : ℝ :=
  min 1 ((hazardPriority hazardType : ℝ) * confidence * ((severity : ℝ) / 5))

/-! ## Group statistics and evidence JSON
(`dedupe.get_group_statistics`, `fusion.create_evidence_json`) -/

/-- Add one to the tally of a key in an association list, preserving Python
dict insertion order. -/
def addCount (counts : List (String × ℕ)) (s : String) : List (String × ℕ) :=
  match counts with
  | [] => [(s, 1)]
  | (k, n) :: rest =>
    if k == s then (k, n + 1) :: rest else (k, n) :: addCount rest s

/-- Count occurrences per key, preserving first-appearance order
(the `source_counts` dict). -/
def countBySource (reports : List FReport) : List (String × ℕ) :=
  reports.foldl (fun counts r => addCount counts r.source) []

/-- `dedupe_engine.get_group_statistics` restricted to the fields that
`create_evidence_json` reads. Python materialises `unique_descriptions` and
the merged keyword set through `set(...)`, whose iteration order is
unspecified; it is modelled as first-occurrence deduplication. -/
structure GroupStats where
  source_distribution : List (String × ℕ)
  earliest_time : Option ℚ
  latest_time : Option ℚ
  unique_descriptions : List String

/-- `dedupe_engine.get_group_statistics` (empty input gives the empty dict,
modelled by empty/none fields). -/
def getGroupStatistics (reports : List FReport) : GroupStats :=
  if reports.isEmpty then
    { source_distribution := [], earliest_time := none, latest_time := none,
      unique_descriptions := [] }
  else
    let timestamps := reports.filterMap fun r => r.timestamp
    { source_distribution := countBySource reports
      earliest_time := timestamps.min?
      latest_time := timestamps.max?
      unique_descriptions :=
        ((reports.filter fun r => !r.text.isEmpty).map fun r => r.text).dedup.take 5 }

/-- Minimal decimal rendering of a Python float for `json.dumps`: integral
values print with a trailing `.0`, finite decimals print exactly. -/
def renderFloat (q : ℚ) : String :=
  let sign := if q < 0 then "-" else ""
  let a := |q|
  match (List.range 41).find? fun k => (a.den : ℕ) ∣ 10 ^ k with
  | some k =>
    if k = 0 then sign ++ toString a.num ++ ".0"
    else
      let scaled := (a.num * (10 : ℤ) ^ k / (a.den : ℤ)).toNat
      let digits := toString scaled
      let digits :=
        if digits.length < k + 1 then
          String.mk (List.replicate (k + 1 - digits.length) '0') ++ digits
        else digits
      let n := digits.length
      sign ++ digits.take (n - k) ++ "." ++ digits.drop (n - k)
  | none => sign ++ toString a.num ++ "/" ++ toString a.den

/-- JSON string literal (escaping elided: the texts exercised here contain no
quotes or control characters). -/
def jsonStr (s : String) : String := "\"" ++ s ++ "\""

/-- Comma-space joined list, bracketed, as `json.dumps` renders lists. -/
def jsonList (items : List String) : String :=
  "[" ++ String.intercalate ", " items ++ "]"

/-- `datetime.isoformat` rendering, abstracted: every evidence blob built in
the claims below has a `null` time range, so only the `null` case is ever
inspected. -/
def isoformatStr (t : ℚ) : String := renderFloat t

/-- `FusionEngine.create_evidence_json`: the exact `json.dumps` string with
keys in insertion order and `", "`/`": "` separators. -/
def createEvidenceJson (reports : List FReport) (stats : GroupStats) : String :=
  "\x7b\"report_count\": " ++ toString reports.length ++
  ", \"source_distribution\": \x7b" ++
    String.intercalate ", "
      (stats.source_distribution.map fun e => jsonStr e.1 ++ ": " ++ toString e.2) ++
  "\x7d, \"confidence_scores\": " ++
    jsonList (reports.map fun r => renderFloat r.nlp_conf) ++
  ", \"credibility_scores\": " ++
    jsonList (reports.map fun r => renderFloat r.credibility) ++
  ", \"report_ids\": " ++ jsonList (reports.map fun r => toString r.id) ++
  ", \"time_range\": \x7b\"earliest\": " ++
    (match stats.earliest_time with
     | some t => jsonStr (isoformatStr t)
     | none => "null") ++
  ", \"latest\": " ++
    (match stats.latest_time with
     | some t => jsonStr (isoformatStr t)
     | none => "null") ++
  "\x7d, \"unique_descriptions\": " ++
    jsonList (stats.unique_descriptions.map jsonStr) ++
  ", \"keywords_found\": " ++
    jsonList ((reports.map fun r => r.keywords_found).flatten.dedup.map jsonStr) ++
  "\x7d"

/-- `FusionResult` (`services/fusion.py`), with the evidence kept as the JSON
string. -/
structure FusionResult where
  hazard_type : String
  confidence : ℝ
  severity : ℤ
  status : String
  centroid_lat : ℚ
  centroid_lon : ℚ
  evidence_json : String
  priority_score : ℝ

/-- `FusionEngine.fuse_reports`: raises `ValueError` on an empty report list,
propagates the `ZeroDivisionError` of `calculate_weighted_severity`. -/
noncomputable def fuseReports (reports : List FReport) (stats : GroupStats) :
    Except String FusionResult :=
  if reports.isEmpty then .error "ValueError: Cannot fuse empty report list"
  else
    let hasLora := reports.any fun r => pyLower r.source == "lora"
    let hazardType := determineConsensusHazardType reports
    let confidence := calcWeightedConfidence reports
    match calcWeightedSeverity reports with
    | .error e => .error e
    | .ok severity =>
      let centroid := calcCentroid reports
      let status := determineStatus confidence hazardType hasLora
      let priorityScore := calcPriorityScore hazardType confidence severity
      .ok
        { hazard_type := hazardType, confidence := confidence,
          severity := severity, status := status,
          centroid_lat := centroid.1, centroid_lon := centroid.2,
          evidence_json := createEvidenceJson reports stats,
          priority_score := priorityScore }

/-! ## Pipeline (`services/ingest.py`) and admin validation (`app.py`) -/

/-- A stored `hazard_events` row (timestamps elided). -/
structure Event where
  id : ℕ
  hazard_type : String
  confidence : ℝ
  severity : ℤ
  status : String
  centroid_lat : ℚ
  centroid_lon : ℚ
  evidence_json : String

/-- The update branch of `_process_group_fusion`: every field of the matched
event, including `status`, is overwritten with the fusion result. -/
def applyFusionUpdate (e : Event) (fr : FusionResult) : Event :=
  { e with
    hazard_type := fr.hazard_type
    confidence := fr.confidence
    severity := fr.severity
    status := fr.status
    centroid_lat := fr.centroid_lat
    centroid_lon := fr.centroid_lon
    evidence_json := fr.evidence_json }

/-- A fresh `HazardEvent` row from the insert branch of
`_process_group_fusion`. -/
def newEventFromFusion (newId : ℕ) (fr : FusionResult) : Event :=
  { id := newId, hazard_type := fr.hazard_type, confidence := fr.confidence,
    severity := fr.severity, status := fr.status,
    centroid_lat := fr.centroid_lat, centroid_lon := fr.centroid_lon,
    evidence_json := fr.evidence_json }

/-- The existing-event query of `_process_group_fusion`: an event matches a
group when its evidence JSON contains the substring `"report_ids": [` and
also contains the decimal string of the group id anywhere. -/
def matchesGroupQuery (groupId : ℕ) (e : Event) : Bool :=
  strContains e.evidence_json "\"report_ids\": [" &&
  strContains e.evidence_json (toString groupId)

/-- The update-or-insert step of `_process_group_fusion` over the event
table: the first matching event (in table order, as `query(...).first()`) is
updated, otherwise a new event is appended. -/
def upsertFusionEvent (events : List Event) (groupId : ℕ) (fr : FusionResult)
    (newId : ℕ) : List Event :=
  match events with
  | [] => [newEventFromFusion newId fr]
  | e :: rest =>
    if matchesGroupQuery groupId e then applyFusionUpdate e fr :: rest
    else e :: upsertFusionEvent rest groupId fr newId

open Classical in
/-- The `validate_hazard` endpoint of `app.py`: `approved` adds 0.2 to the
confidence (cap 1.0), `rejected` subtracts 0.3 (floor 0.0), any other
decision only sets the status. Python's `hazard['confidence'] or 0.5`
replaces a stored confidence of exactly 0.0 by 0.5. -/
noncomputable def validateHazard (e : Event) (decision : String) : Event :=
  let currentConfidence : ℝ := if e.confidence = 0 then 0.5 else e.confidence
  if decision == "approved" then
    { e with status := decision, confidence := min (currentConfidence + 0.2) 1 }
  else if decision == "rejected" then
    { e with status := decision, confidence := max (currentConfidence - 0.3) 0 }
  else
    { e with status := decision }

/-- The value bound to `nlp_result` in `process_single_report`: normally an
`NLPResult` object, but the emergency override rebinds it to a plain Python
dict with only three keys. -/
inductive PyNLPValue where
  | res (r : NLPResult)
  | dict (hazard_type : String) (confidence : ℚ) (keywords_found : List String)

/-- The emergency override in `process_single_report`: when `is_emergency` is
set or the source is the `lora_sos` beacon channel, the classifier result is
replaced by the dict literal `{'hazard_type': 'emergency', 'confidence':
0.99, 'keywords_found': ['sos', 'emergency']}` (no `severity_boost` key). -/
def emergencyOverride (isEmergency : Bool) (source : String) (r : NLPResult) :
    PyNLPValue :=
  if isEmergency || source == "lora_sos" then
    .dict "emergency" 0.99 ["sos", "emergency"]
  else .res r

/-- Python attribute access `nlp_result.hazard_type`: raises
`AttributeError` on a plain dict. -/
def pyAttrHazardType : PyNLPValue → Except String String
  | .res r => .ok r.hazard_type
  | .dict _ _ _ =>
    .error "AttributeError: 'dict' object has no attribute 'hazard_type'"

/-- Python attribute access `nlp_result.confidence`: raises `AttributeError`
on a plain dict. -/
def pyAttrConfidence : PyNLPValue → Except String ℚ
  | .res r => .ok r.confidence
  | .dict _ _ _ =>
    .error "AttributeError: 'dict' object has no attribute 'confidence'"

/-- Steps 1–2 of `process_single_report` up to the writes
`report.nlp_type = nlp_result.hazard_type` and
`report.nlp_conf = nlp_result.confidence`: classification, the emergency
override, then the two attribute reads. -/
def pipelineNlpPhase (isEmergency : Bool) (source text : String)
    (hasMedia mediaVerified : Bool) : Except String (String × ℚ) := do
  let v := emergencyOverride isEmergency source
    (classifyText text source hasMedia mediaVerified)
  let hazardType ← pyAttrHazardType v
  let confidence ← pyAttrConfidence v
  pure (hazardType, confidence)

/-! ## Bridging lemmas and shared concrete inputs -/

theorem qmin_eq_min (a b : ℚ) : qmin a b = min a b := (min_def a b).symm

theorem qmax_eq_max (a b : ℚ) : qmax a b = max a b := (max_def a b).symm

theorem zmin_eq_min (a b : ℤ) : zmin a b = min a b := (min_def a b).symm

theorem zmax_eq_max (a b : ℤ) : zmax a b = max a b := (max_def a b).symm

/-- Exact rational 0.08 with kernel-transparent numerator and denominator. -/
def q008 : ℚ := ⟨2, 25, by norm_num, by norm_num⟩

/-- Exact rational 0.5 with kernel-transparent numerator and denominator. -/
def q05 : ℚ := ⟨1, 2, by norm_num, by norm_num⟩

theorem q008_eq : q008 = 2 / 25 := by
  rw [q008, Rat.mk'_eq_divInt, Rat.divInt_eq_div]; norm_num

theorem q05_eq : q05 = 1 / 2 := by
  rw [q05, Rat.mk'_eq_divInt, Rat.divInt_eq_div]; norm_num

/-- A processed citizen flood report (id 2) as stored by the pipeline:
`nlp_conf = 0.08` (the clamped single-citizen confidence), credibility 0.5,
no media, no timestamp. -/
def r2c : FReport :=
  { id := 2, source := "citizen", text := "flood here", lat := q05, lon := q05,
    timestamp := none, nlp_type := "flood", nlp_conf := q008, credibility := q05,
    has_media := false, media_verified := false, keywords_found := [],
    severity_boost := 0, severity := none }

/-- A second identical citizen report with id 3. -/
def r3c : FReport := { r2c with id := 3 }

/-! ## C4 — emergency-beacon override -/

/-- Claim C4: the spec says that for an emergency-beacon report the pipeline
replaces the classifier result with
`(emergency, 0.99, severity boost 2, ["sos", "emergency"])` and continues
normally. In the code the replacement is a plain dict with no
`severity_boost` key, and the very next statement reads
`nlp_result.hazard_type` as an attribute, which raises `AttributeError` on a
dict, so processing of every `lora_sos` report aborts instead of continuing.
This theorem evaluates the embedded pipeline steps at such a report. -/
theorem C4_beacon_override_crashes (isEmergency : Bool) (source text : String)
    (hasMedia mediaVerified : Bool)
    (h : (isEmergency || source == "lora_sos") = true) :
    pipelineNlpPhase isEmergency source text hasMedia mediaVerified =
      .error "AttributeError: 'dict' object has no attribute 'hazard_type'" := by
  simp only [pipelineNlpPhase, emergencyOverride, h, if_true]
  rfl

/-- Witness for C4: a concrete `lora_sos` report crashes the NLP phase. -/
theorem C4_beacon_override_crashes_witness :
    (false || "lora_sos" == "lora_sos") = true ∧
    pipelineNlpPhase false "lora_sos" "sos help" false false =
      .error "AttributeError: 'dict' object has no attribute 'hazard_type'" :=
  ⟨by decide, C4_beacon_override_crashes false "lora_sos" "sos help" false false
    (by decide)⟩

/-! ## C8 — zero-keyword-score classification -/

/-- Counterexample to claim C8: the text `"urgent"` matches no hazard keyword
(its keyword score is 0 for every kind), yet the classifier's severity boost
is 2, not 0 — the severity boost is computed from the separate severity
keyword lists, independently of the hazard keywords. -/
theorem C8_counterexample :
    hazardScores "urgent" = [] ∧
    (classifyText "urgent" "citizen" false false).severity_boost = 2 := by
  constructor
  · decide
  · have hw : ("urgent".toList.all isSpaceChar) = false := by decide
    simp only [classifyText, hw, Bool.false_eq_true, if_false]
    decide

/-- Claim C8 as amended: on a non-whitespace text whose keyword score is 0
for every hazard kind, the classifier emits kind `unknown`, base confidence
0.3 (before source scaling) and an empty keyword list, but the severity
boost is the independently computed `extract_severity_boost` of the text,
which need not be 0. -/
theorem C8_zero_score_classification (text source : String)
    (hasMedia mediaVerified : Bool)
    (hws : (text.toList.all isSpaceChar) = false)
    (hsc : hazardScores text = []) :
    extractHazardType text = ("unknown", 0.3, []) ∧
    (classifyText text source hasMedia mediaVerified).hazard_type = "unknown" ∧
    (classifyText text source hasMedia mediaVerified).keywords_found = [] ∧
    (classifyText text source hasMedia mediaVerified).severity_boost =
      extractSeverityBoost text := by
  have he : extractHazardType text = ("unknown", 0.3, []) := by
    simp only [extractHazardType, hsc]
  refine ⟨he, ?_, ?_, ?_⟩ <;>
    simp only [classifyText, hws, Bool.false_eq_true, if_false, he]

/-- Witness for C8's amended claim at the text `"urgent"`. -/
theorem C8_zero_score_classification_witness :
    (("urgent".toList.all isSpaceChar) = false ∧ hazardScores "urgent" = []) ∧
    extractHazardType "urgent" = ("unknown", 0.3, []) ∧
    (classifyText "urgent" "citizen" false false).hazard_type = "unknown" ∧
    (classifyText "urgent" "citizen" false false).keywords_found = [] ∧
    (classifyText "urgent" "citizen" false false).severity_boost =
      extractSeverityBoost "urgent" :=
  ⟨⟨by decide, by decide⟩,
   C8_zero_score_classification "urgent" "citizen" false false (by decide)
     (by decide)⟩

/-! ## C5 — source scaling for the lora channel -/

/-- The foldl used by Python's `max(d, key=d.get)` returns its seed or a list
element. -/
theorem foldl_best_mem (l : List (String × ℕ)) (init : String × ℕ) :
    l.foldl (fun best kv => if kv.2 > best.2 then kv else best) init = init ∨
    l.foldl (fun best kv => if kv.2 > best.2 then kv else best) init ∈ l := by
  induction l generalizing init with
  | nil => left; rfl
  | cons h t ih =>
    simp only [List.foldl_cons]
    rcases ih (if h.2 > init.2 then h else init) with heq | hmem
    · rw [heq]
      split
      · right; exact List.mem_cons_self _ _
      · left; rfl
    · right; exact List.mem_cons_of_mem _ hmem

/-- `argmaxFirstNat` of a nonempty list names the key of one of its
entries. -/
theorem argmaxFirstNat_mem (l : List (String × ℕ)) (hl : l ≠ []) :
    ∃ e ∈ l, argmaxFirstNat l = e.1 := by
  match l, hl with
  | (k, v) :: rest, _ =>
    rcases foldl_best_mem rest (k, v) with heq | hmem
    · exact ⟨(k, v), List.mem_cons_self _ _, by simp [argmaxFirstNat, heq]⟩
    · exact ⟨_, List.mem_cons_of_mem _ hmem, by simp [argmaxFirstNat]⟩

/-- Whenever some hazard keyword matched, the base confidence
`min(0.4 + 0.05·score, 0.7)` lies in `[0.45, 0.7]`. -/
theorem base_confidence_bounds (text : String) (h : hazardScores text ≠ []) :
    9/20 ≤ (extractHazardType text).2.1 ∧ (extractHazardType text).2.1 ≤ 7/10 := by
  cases hs : hazardScores text with
  | nil => exact absurd hs h
  | cons a rest =>
    obtain ⟨em, hmemMap, hkey⟩ :=
      argmaxFirstNat_mem ((a :: rest).map fun e => (e.1, e.2.1)) (by simp)
    obtain ⟨orig, horig, horigEq⟩ := List.mem_map.mp hmemMap
    have hfindSome : ((a :: rest).find? fun e =>
        e.1 == argmaxFirstNat ((a :: rest).map fun e => (e.1, e.2.1))).isSome := by
      apply List.find?_isSome.mpr
      refine ⟨orig, horig, ?_⟩
      have h1 : orig.1 = em.1 := by rw [← horigEq]
      simp only [beq_iff_eq]
      exact h1.trans hkey.symm
    obtain ⟨e', hfind⟩ := Option.isSome_iff_exists.mp hfindSome
    have he'mem : e' ∈ a :: rest := List.mem_of_find?_eq_some hfind
    have he'pos : 0 < e'.2.1 := by
      have hin : e' ∈ hazardScores text := hs ▸ he'mem
      simp only [hazardScores] at hin
      exact of_decide_eq_true (List.mem_filter.mp hin).2
    have hcast : (1 : ℚ) ≤ (e'.2.1 : ℚ) := by exact_mod_cast he'pos
    have hgoal : (extractHazardType text).2.1 =
        qmin (0.4 + (e'.2.1 : ℚ) * 0.05) 0.7 := by
      simp only [extractHazardType, hs, hfind]
    rw [hgoal, qmin_eq_min]
    constructor
    · apply le_min <;> [linarith; norm_num]
    · exact (min_le_right _ _).trans (by norm_num)

/-- Counterexample to claim C5: for the non-empty text `"flood"` (keyword
score 2) and source string `'lora'`, the classifier's confidence after
source scaling is `0.5 · 0.25 = 0.125` — the `'lora'` key is absent from the
scaling table (the beacon channel is keyed `'lora_sos'`), so the default
factor 0.25 applies and no clamp branch fires — whereas the claim's formula
`clamp_[0.29,0.95](0.5 · 0.95)` gives 0.475. -/
theorem C5_counterexample :
    (classifyText "flood" "lora" false false).confidence = 1/8 ∧
    qmax 0.29 (qmin 0.95 ((extractHazardType "flood").2.1 * 0.95)) = 19/40 ∧
    (1/8 : ℚ) ≠ 19/40 := by
  have h : hazardScores "flood" = [("flood", 2, ["flood"])] := by decide
  have he : extractHazardType "flood" = ("flood", 1/2, ["flood"]) := by
    simp only [extractHazardType, h]
    norm_num [argmaxFirstNat, qmin_eq_min]
  have hw : ("flood".toList.all isSpaceChar) = false := by decide
  have hl : pyLower "lora" = "lora" := by decide
  refine ⟨?_, ?_, by norm_num⟩
  · simp only [classifyText, hw, Bool.false_eq_true, if_false, he,
      applyProgressiveConfidence, applyMediaVerificationBoost, hl]
    norm_num [(by decide : ¬("lora" = "citizen")),
      (by decide : ¬("lora" = "social_media")),
      (by decide : ¬("lora" = "incois")), (by decide : ¬("lora" = "lora_sos"))]
  · rw [he]
    norm_num [qmin_eq_min, qmax_eq_max]

/-- Claim C5 as amended: the beacon channel's source string is `'lora_sos'`,
not `'lora'`. For every text with a nonzero keyword score, the confidence
after source scaling for `'lora_sos'` equals the base confidence times 0.95;
no clamp is applied in that branch, and the clamp into `[0.29, 0.95]` is the
identity there (the base confidence lies in `[0.45, 0.7]`), so the scaled
value also equals the claimed clamped form. -/
theorem C5_lora_sos_scaling (text : String) (h : hazardScores text ≠ []) :
    applyProgressiveConfidence (extractHazardType text).2.1 "lora_sos" =
      (extractHazardType text).2.1 * 0.95 ∧
    qmax 0.29 (qmin 0.95 ((extractHazardType text).2.1 * 0.95)) =
      (extractHazardType text).2.1 * 0.95 := by
  obtain ⟨hlo, hhi⟩ := base_confidence_bounds text h
  have hl : pyLower "lora_sos" = "lora_sos" := by decide
  constructor
  · simp only [applyProgressiveConfidence, hl]
    norm_num [(by decide : ¬("lora_sos" = "citizen")),
      (by decide : ¬("lora_sos" = "social_media")),
      (by decide : ¬("lora_sos" = "incois"))]
  · rw [qmin_eq_min, qmax_eq_max, min_eq_right (by linarith), max_eq_right (by linarith)]

/-- Witness for C5's amended claim at the text `"flood"`. -/
theorem C5_lora_sos_scaling_witness :
    hazardScores "flood" ≠ [] ∧
    (applyProgressiveConfidence (extractHazardType "flood").2.1 "lora_sos" =
      (extractHazardType "flood").2.1 * 0.95 ∧
    qmax 0.29 (qmin 0.95 ((extractHazardType "flood").2.1 * 0.95)) =
      (extractHazardType "flood").2.1 * 0.95) :=
  ⟨by decide, C5_lora_sos_scaling "flood" (by decide)⟩

/-! ## C3 — totality of the pipeline stages -/

/-- A processed citizen report whose credibility is exactly 0. -/
def rZeroCred : FReport := { r2c with credibility := 0 }

/-- Counterexample to claim C3: the fusion engine is not total. `fuse_reports`
raises `ValueError` on the empty report list, and
`calculate_weighted_severity` — and hence `fuse_reports` — raises
`ZeroDivisionError` on a report list in which every report's credibility is 0
(every weight `source_weight · credibility` is then 0). -/
theorem C3_counterexample :
    fuseReports [] (getGroupStatistics []) =
      .error "ValueError: Cannot fuse empty report list" ∧
    calcWeightedSeverity [rZeroCred] =
      .error "ZeroDivisionError: division by zero" ∧
    fuseReports [rZeroCred] (getGroupStatistics [rZeroCred]) =
      .error "ZeroDivisionError: division by zero" := by
  have hsev : calcWeightedSeverity [rZeroCred] =
      .error "ZeroDivisionError: division by zero" := by
    simp only [calcWeightedSeverity, rZeroCred, r2c, List.isEmpty_cons,
      Bool.false_eq_true, if_false, List.map_cons, List.map_nil, List.sum_cons,
      List.sum_nil]
    norm_num
  refine ⟨rfl, hsev, ?_⟩
  simp only [fuseReports, List.isEmpty_cons, Bool.false_eq_true, if_false, hsev]

/-- Claim C3 as amended: the classifier, credibility scorer and clusterer are
total (they are plain functions in this embedding), but fusion is total only
away from its two error cases: for every non-empty report list whose severity
weights `source_weight · credibility` do not sum to zero, `fuse_reports`
returns a result. -/
theorem C3_fuse_returns_result (reports : List FReport) (stats : GroupStats)
    (hne : reports ≠ [])
    (hw : ((reports.map fun r =>
      fusionSourceWeight (pyLower r.source) * r.credibility).sum) ≠ 0) :
    ∃ fr, fuseReports reports stats = .ok fr := by
  obtain ⟨r0, rs, rfl⟩ := List.exists_cons_of_ne_nil hne
  have hsev : ∃ s, calcWeightedSeverity (r0 :: rs) = .ok s := by
    simp only [calcWeightedSeverity, List.isEmpty_cons, Bool.false_eq_true,
      if_false]
    rw [if_neg]
    · exact ⟨_, rfl⟩
    · simpa [List.map_map, Function.comp] using hw
  obtain ⟨s, hs⟩ := hsev
  simp only [fuseReports, List.isEmpty_cons, Bool.false_eq_true, if_false, hs]
  exact ⟨_, rfl⟩

/-- Witness for C3's amended claim: one ordinary citizen report fuses
successfully. -/
theorem C3_fuse_returns_result_witness :
    ([r2c] ≠ [] ∧
      (([r2c].map fun r =>
        fusionSourceWeight (pyLower r.source) * r.credibility).sum) ≠ 0) ∧
    ∃ fr, fuseReports [r2c] (getGroupStatistics [r2c]) = .ok fr := by
  have h2 : (([r2c].map fun r =>
      fusionSourceWeight (pyLower r.source) * r.credibility).sum) ≠ 0 := by
    have hl : pyLower "citizen" = "citizen" := by decide
    simp only [List.map_cons, List.map_nil, List.sum_cons, List.sum_nil, r2c, hl]
    norm_num [fusionSourceWeight, q05_eq, (by decide : ¬("citizen" = "incois")),
      (by decide : ¬("citizen" = "lora"))]
  exact ⟨⟨List.cons_ne_nil _ _, h2⟩,
    C3_fuse_returns_result [r2c] (getGroupStatistics [r2c])
      (List.cons_ne_nil _ _) h2⟩

/-! ## C9 — consensus vote and tie-breaking -/

/-- Dict lookup with default 0 over the vote association list. -/
def votesLookup (votes : List (String × ℚ)) (k : String) : ℚ :=
  match votes.find? fun e => e.1 == k with
  | some e => e.2
  | none => 0

/-- `addVote` adds the weight to exactly the voted key. -/
theorem votesLookup_addVote (votes : List (String × ℚ)) (kk : String) (w : ℚ)
    (k : String) :
    votesLookup (addVote votes kk w) k =
      votesLookup votes k + (if kk = k then w else 0) := by
  induction votes with
  | nil =>
    by_cases h : kk = k
    · subst h
      simp [addVote, votesLookup, List.find?]
    · have hb : (kk == k) = false := beq_eq_false_iff_ne.mpr h
      simp [addVote, votesLookup, List.find?, hb, h]
  | cons hd tl ih =>
    obtain ⟨k0, w0⟩ := hd
    by_cases h1 : k0 = kk
    · subst h1
      by_cases h2 : k0 = k
      · subst h2
        simp [addVote, votesLookup, List.find?]
      · have hb : (k0 == k) = false := beq_eq_false_iff_ne.mpr h2
        simp [addVote, votesLookup, List.find?, hb, h2]
    · have hb1 : (k0 == kk) = false := beq_eq_false_iff_ne.mpr h1
      by_cases h2 : k0 = k
      · subst h2
        have h3 : ¬kk = k0 := fun he => h1 he.symm
        simp [addVote, votesLookup, List.find?, hb1, h3]
      · have hb2 : (k0 == k) = false := beq_eq_false_iff_ne.mpr h2
        have ha : addVote ((k0, w0) :: tl) kk w = (k0, w0) :: addVote tl kk w := by
          simp [addVote, hb1]
        have e1 : votesLookup ((k0, w0) :: addVote tl kk w) k =
            votesLookup (addVote tl kk w) k := by
          simp [votesLookup, List.find?, hb2]
        have e2 : votesLookup ((k0, w0) :: tl) k = votesLookup tl k := by
          simp [votesLookup, List.find?, hb2]
        rw [ha, e1, e2, ih]

/-- Characterisation of the vote dict: the total vote of a kind is the sum of
`source_weight · nlp_conf · credibility` over the reports predicting it. -/
theorem votesLookup_foldl (rs : List FReport) (init : List (String × ℚ))
    (k : String) :
    votesLookup (rs.foldl (fun votes r => addVote votes r.nlp_type (voteWeight r)) init) k =
      votesLookup init k +
        ((rs.filter fun r => r.nlp_type == k).map voteWeight).sum := by
  induction rs generalizing init with
  | nil => simp
  | cons r rs ih =>
    simp only [List.foldl_cons, ih, votesLookup_addVote, List.filter_cons]
    by_cases h : r.nlp_type = k <;> simp [h] <;> ring

/-- The foldl of Python's `max(d, key=d.get)` over rational votes: the result
is the seed or an element, and its value dominates the seed and every
element. -/
theorem foldl_bestQ_spec (l : List (String × ℚ)) (init : String × ℚ) :
    (l.foldl (fun best kv => if kv.2 > best.2 then kv else best) init = init ∨
      l.foldl (fun best kv => if kv.2 > best.2 then kv else best) init ∈ l) ∧
    init.2 ≤ (l.foldl (fun best kv => if kv.2 > best.2 then kv else best) init).2 ∧
    ∀ kv ∈ l, kv.2 ≤ (l.foldl (fun best kv => if kv.2 > best.2 then kv else best) init).2 := by
  induction l generalizing init with
  | nil => exact ⟨Or.inl rfl, le_refl _, by simp⟩
  | cons h t ih =>
    obtain ⟨ihMem, ihInit, ihAll⟩ := ih (if h.2 > init.2 then h else init)
    simp only [List.foldl_cons]
    refine ⟨?_, ?_, ?_⟩
    · rcases ihMem with heq | hmem
      · rw [heq]
        split
        · exact Or.inr (List.mem_cons_self _ _)
        · exact Or.inl rfl
      · exact Or.inr (List.mem_cons_of_mem _ hmem)
    · refine le_trans ?_ ihInit
      split <;> [linarith [le_of_lt (by assumption : init.2 < h.2)]; exact le_refl _]
    · intro kv hkv
      rcases List.mem_cons.mp hkv with rfl | hkv
      · refine le_trans ?_ ihInit
        split <;> [exact le_refl _; linarith [le_of_not_lt (by assumption : ¬init.2 < kv.2)]]
      · exact ihAll kv hkv

/-- `argmaxFirst` of a nonempty vote list names an entry whose vote dominates
all entries. -/
theorem argmaxFirst_spec (l : List (String × ℚ)) (hl : l ≠ []) :
    ∃ e ∈ l, argmaxFirst l = e.1 ∧ ∀ kv ∈ l, kv.2 ≤ e.2 := by
  match l, hl with
  | (k, v) :: rest, _ =>
    obtain ⟨hMem, hInit, hAll⟩ := foldl_bestQ_spec rest (k, v)
    refine ⟨rest.foldl (fun best kv => if kv.2 > best.2 then kv else best) (k, v),
      ?_, by simp [argmaxFirst], ?_⟩
    · rcases hMem with heq | hmem
      · rw [heq]; exact List.mem_cons_self _ _
      · exact List.mem_cons_of_mem _ hmem
    · intro kv hkv
      rcases List.mem_cons.mp hkv with rfl | hkv
      · exact hInit
      · exact hAll kv hkv

/-- `addVote` never returns an empty dict. -/
theorem addVote_ne_nil (votes : List (String × ℚ)) (k : String) (w : ℚ) :
    addVote votes k w ≠ [] := by
  cases votes with
  | nil => simp [addVote]
  | cons hd tl =>
    simp only [addVote]
    split <;> simp

/-- The vote dict of a nonempty report list is nonempty. -/
theorem buildVotes_ne_nil (reports : List FReport) (h : reports ≠ []) :
    buildVotes reports ≠ [] := by
  obtain ⟨r0, rs, rfl⟩ := List.exists_cons_of_ne_nil h
  rw [buildVotes, List.foldl_cons]
  have : ∀ (l : List FReport) (init : List (String × ℚ)), init ≠ [] →
      l.foldl (fun votes r => addVote votes r.nlp_type (voteWeight r)) init ≠ [] := by
    intro l
    induction l with
    | nil => intro init h; simpa using h
    | cons a t ih =>
      intro init _
      rw [List.foldl_cons]
      exact ih _ (addVote_ne_nil _ _ _)
  exact this rs _ (addVote_ne_nil _ _ _)

/-- The keys of `addVote votes k w`: unchanged when `k` is already a key,
extended by `k` otherwise. -/
theorem addVote_keys (votes : List (String × ℚ)) (k : String) (w : ℚ) :
    (addVote votes k w).map Prod.fst =
      if votes.any fun e => e.1 == k then votes.map Prod.fst
      else votes.map Prod.fst ++ [k] := by
  induction votes with
  | nil => simp [addVote]
  | cons hd tl ih =>
    obtain ⟨k0, w0⟩ := hd
    by_cases h : k0 = k
    · subst h
      simp [addVote]
    · have hb : (k0 == k) = false := beq_eq_false_iff_ne.mpr h
      simp only [addVote, hb, Bool.false_eq_true, if_false, List.map_cons, ih,
        List.any_cons, Bool.false_or]
      split <;> simp

/-- `addVote` preserves distinctness of the keys. -/
theorem addVote_keys_nodup (votes : List (String × ℚ)) (k : String) (w : ℚ)
    (h : (votes.map Prod.fst).Nodup) : ((addVote votes k w).map Prod.fst).Nodup := by
  rw [addVote_keys]
  split
  · exact h
  · rename_i hany
    rw [List.nodup_append]
    refine ⟨h, List.nodup_singleton _, fun a ha hb => ?_⟩
    rw [List.mem_singleton] at hb
    subst hb
    obtain ⟨e, hev, hek⟩ := List.mem_map.mp ha
    exact hany (List.any_eq_true.mpr ⟨e, hev, by simp [hek]⟩)

/-- The vote dict has distinct keys. -/
theorem buildVotes_keys_nodup (reports : List FReport) :
    ((buildVotes reports).map Prod.fst).Nodup := by
  rw [buildVotes]
  have : ∀ (l : List FReport) (init : List (String × ℚ)),
      (init.map Prod.fst).Nodup →
      ((l.foldl (fun votes r => addVote votes r.nlp_type (voteWeight r)) init).map
        Prod.fst).Nodup := by
    intro l
    induction l with
    | nil => intro init h; simpa using h
    | cons a t ih =>
      intro init h
      rw [List.foldl_cons]
      exact ih _ (addVote_keys_nodup _ _ _ h)
  exact this reports [] (by simp)

/-- With distinct keys, `votesLookup` at a member's key returns its value. -/
theorem votesLookup_of_mem_nodup (votes : List (String × ℚ))
    (hnd : (votes.map Prod.fst).Nodup) (e : String × ℚ) (he : e ∈ votes) :
    votesLookup votes e.1 = e.2 := by
  induction votes with
  | nil => cases he
  | cons hd tl ih =>
    rw [List.map_cons, List.nodup_cons] at hnd
    rcases List.mem_cons.mp he with rfl | htl
    · simp [votesLookup, List.find?]
    · have hne : (hd.1 == e.1) = false := by
        refine beq_eq_false_iff_ne.mpr fun hEq => hnd.1 ?_
        exact hEq ▸ List.mem_map_of_mem Prod.fst htl
      have hstep : votesLookup (hd :: tl) e.1 = votesLookup tl e.1 := by
        simp [votesLookup, List.find?, hne]
      rw [hstep]
      exact ih hnd.2 htl

/-- A processed citizen report predicting kind `unknown`. -/
def rUnknown : FReport := { r2c with nlp_type := "unknown" }

/-- A processed citizen report (same source, confidence and credibility)
predicting kind `tsunami`. -/
def rTsunami : FReport := { r2c with id := 3, nlp_type := "tsunami" }

/-- Counterexample to claim C9: with two reports of exactly equal weighted
votes for `unknown` (first) and `tsunami` (second), the code returns
`unknown` — Python's `max(votes, key=votes.get)` keeps the first key in dict
insertion order on ties — whereas the claimed priority table
`emergency > tsunami > … > unknown` would pick `tsunami`. -/
theorem C9_counterexample :
    buildVotes [rUnknown, rTsunami] =
      [("unknown", 3/125), ("tsunami", 3/125)] ∧
    determineConsensusHazardType [rUnknown, rTsunami] = "unknown" ∧
    ("unknown" : String) ≠ "tsunami" := by
  have hl : pyLower "citizen" = "citizen" := by decide
  have hv : buildVotes [rUnknown, rTsunami] =
      [("unknown", 3/125), ("tsunami", 3/125)] := by
    simp only [buildVotes, List.foldl_cons, List.foldl_nil, addVote, voteWeight,
      rUnknown, rTsunami, r2c, hl]
    norm_num [fusionSourceWeight, q008_eq, q05_eq,
      (by decide : ¬("citizen" = "incois")), (by decide : ¬("citizen" = "lora")),
      (by decide : ¬("unknown" = "tsunami"))]
  refine ⟨hv, ?_, by decide⟩
  rw [determineConsensusHazardType]
  simp only [List.isEmpty_cons, Bool.false_eq_true, if_false, hv]
  norm_num [argmaxFirst]

/-- Claim C9 as amended: each report contributes
`source_weight · nlp_conf · credibility` to its predicted kind and a kind
with maximal total vote wins; ties are broken by first appearance order in
the report list (Python dict insertion order), not by the priority table. -/
theorem C9_consensus_is_weighted_argmax (reports : List FReport)
    (h : reports ≠ []) :
    (∀ k, votesLookup (buildVotes reports) k =
      ((reports.filter fun r => r.nlp_type == k).map voteWeight).sum) ∧
    ∀ kv ∈ buildVotes reports,
      kv.2 ≤ votesLookup (buildVotes reports)
        (determineConsensusHazardType reports) := by
  constructor
  · intro k
    have := votesLookup_foldl reports [] k
    simpa [votesLookup] using this
  · have hbv : buildVotes reports ≠ [] := buildVotes_ne_nil reports h
    obtain ⟨e, heMem, heKey, heMax⟩ := argmaxFirst_spec (buildVotes reports) hbv
    have hcons : determineConsensusHazardType reports = e.1 := by
      rw [determineConsensusHazardType]
      have hne : reports.isEmpty = false := by
        cases reports
        · exact absurd rfl h
        · rfl
      rw [hne]
      simp only [Bool.false_eq_true, if_false]
      cases hv : buildVotes reports with
      | nil => exact absurd hv hbv
      | cons a rest => rw [← hv, heKey]
    rw [hcons, votesLookup_of_mem_nodup _ (buildVotes_keys_nodup reports) e heMem]
    exact heMax

/-- Witness for C9's amended claim at the two-report tie. -/
theorem C9_consensus_is_weighted_argmax_witness :
    [rUnknown, rTsunami] ≠ [] ∧
    ((∀ k, votesLookup (buildVotes [rUnknown, rTsunami]) k =
      (([rUnknown, rTsunami].filter fun r => r.nlp_type == k).map voteWeight).sum) ∧
    ∀ kv ∈ buildVotes [rUnknown, rTsunami],
      kv.2 ≤ votesLookup (buildVotes [rUnknown, rTsunami])
        (determineConsensusHazardType [rUnknown, rTsunami])) :=
  ⟨List.cons_ne_nil _ _,
   C9_consensus_is_weighted_argmax [rUnknown, rTsunami] (List.cons_ne_nil _ _)⟩

/-! ## C2 — one event per group (upsert matching) -/

set_option maxRecDepth 8000 in
/-- The first two fuses of group 1 when its reports have ids 2 and 3: the
evidence JSON of the group's own event contains no character `1`, so the
substring query misses it and the second fuse inserts a second event for the
same group. This refutes "processing any sequence of reports never produces
two events for the same group": both upserts are for group 1, starting from
an empty event table, yet the table ends with two rows. -/
theorem C2_counterexample :
    (fuseReports [r2c, r3c] (getGroupStatistics [r2c, r3c])).map
      (fun fr => (upsertFusionEvent (upsertFusionEvent [] 1 fr 1) 1 fr 2).length)
      = .ok 2 := by
  have hl : pyLower "citizen" = "citizen" := by decide
  have hsev : calcWeightedSeverity [r2c, r3c] = .ok 3 := by
    simp only [calcWeightedSeverity, List.isEmpty_cons, Bool.false_eq_true,
      if_false, List.map_cons, List.map_nil, r2c, r3c, hl, fusionSourceWeight,
      zmin, zmax, q05_eq, q008_eq]
    norm_num [pyRound, Int.fract,
      (by decide : ¬("citizen" = "incois")), (by decide : ¬("citizen" = "lora"))]
  obtain ⟨fr, hfr, hev⟩ : ∃ fr,
      fuseReports [r2c, r3c] (getGroupStatistics [r2c, r3c]) = .ok fr ∧
      fr.evidence_json =
        createEvidenceJson [r2c, r3c] (getGroupStatistics [r2c, r3c]) := by
    simp only [fuseReports, List.isEmpty_cons, Bool.false_eq_true, if_false, hsev]
    exact ⟨_, rfl, rfl⟩
  rw [hfr]
  have h1 : upsertFusionEvent ([] : List Event) 1 fr 1 =
      [newEventFromFusion 1 fr] := rfl
  have hm : matchesGroupQuery 1 (newEventFromFusion 1 fr) = false := by
    simp only [matchesGroupQuery, newEventFromFusion, hev]
    decide
  simp only [Except.map, h1, upsertFusionEvent, hm, Bool.false_eq_true, if_false,
    List.length_cons, List.length_nil]

/-- Claim C2 as amended: `_process_group_fusion` matches the existing event
by substring search — an event is considered the group's event iff its
evidence JSON contains both `"report_ids": [` and the decimal string of the
group id anywhere. The upsert updates the first matching event in table
order if one exists (table size unchanged), and otherwise appends a new
event; when the group's own evidence happens not to contain the group id's
digits, a second event for the same group is inserted (see the
counterexample). -/
theorem C2_substring_upsert (events : List Event) (groupId : ℕ)
    (fr : FusionResult) (newId : ℕ) :
    (events.any (matchesGroupQuery groupId) = false →
      upsertFusionEvent events groupId fr newId =
        events ++ [newEventFromFusion newId fr]) ∧
    (upsertFusionEvent events groupId fr newId).length =
      (if events.any (matchesGroupQuery groupId) then events.length
       else events.length + 1) := by
  induction events with
  | nil => simp [upsertFusionEvent]
  | cons e rest ih =>
    cases hm : matchesGroupQuery groupId e with
    | true =>
      simp [upsertFusionEvent, hm, List.any_cons]
    | false =>
      constructor
      · intro hnone
        rw [List.any_cons, hm, Bool.false_or] at hnone
        simp only [upsertFusionEvent, hm, Bool.false_eq_true, if_false,
          ih.1 hnone, List.cons_append]
      · simp only [upsertFusionEvent, hm, Bool.false_eq_true, if_false,
          List.length_cons, ih.2, List.any_cons, Bool.false_or]
        split <;> simp

/-- A closed fusion result used to witness the upsert characterisation. -/
def frW : FusionResult :=
  { hazard_type := "flood", confidence := 0, severity := 3, status := "review",
    centroid_lat := 0, centroid_lon := 0, evidence_json := "e",
    priority_score := 0 }

/-- Witness for C2's amended claim on the empty event table. -/
theorem C2_substring_upsert_witness :
    (([] : List Event).any (matchesGroupQuery 1) = false →
      upsertFusionEvent [] 1 frW 7 = [] ++ [newEventFromFusion 7 frW]) ∧
    (upsertFusionEvent ([] : List Event) 1 frW 7).length =
      (if ([] : List Event).any (matchesGroupQuery 1) then
        ([] : List Event).length
       else ([] : List Event).length + 1) :=
  C2_substring_upsert [] 1 frW 7

/-! ## C7 — credibility scores stay in the unit interval -/

/-- Membership in `[0, 1]`. -/
def inUnit (q : ℚ) : Prop := 0 ≤ q ∧ q ≤ 1

theorem scoreSourceReliability_inUnit (source : String) :
    inUnit (scoreSourceReliability source) := by
  rw [scoreSourceReliability, inUnit]
  split_ifs <;> norm_num

theorem scoreMediaPresence_inUnit (mediaPath : Option String) :
    inUnit (scoreMediaPresence mediaPath) := by
  cases mediaPath with
  | none => rw [scoreMediaPresence, inUnit]; norm_num
  | some p =>
    rw [scoreMediaPresence, inUnit]
    split_ifs <;> norm_num

theorem scoreGpsAccuracy_inUnit (lat lon : ℚ) (latPrec lonPrec : ℕ)
    (gpsAccuracy : Option ℚ) :
    inUnit (scoreGpsAccuracy lat lon latPrec lonPrec gpsAccuracy) := by
  rw [inUnit]
  cases gpsAccuracy <;> simp only [scoreGpsAccuracy] <;> split_ifs <;> norm_num

theorem scoreTextQuality_inUnit (text : String) (spamMatches infoMatches : List Bool) :
    inUnit (scoreTextQuality text spamMatches infoMatches) := by
  rw [scoreTextQuality, inUnit]
  split_ifs
  · norm_num
  · rw [qmin_eq_min, qmax_eq_max]
    constructor
    · apply le_min
      · apply le_trans (show (0:ℚ) ≤ 0.0 by norm_num)
        apply le_max_right
      · norm_num
    · exact le_trans (min_le_right _ _) (by norm_num)

theorem scoreTemporalConsistency_inUnit (now : ℚ) (timestamp : Option ℚ) :
    inUnit (scoreTemporalConsistency now timestamp) := by
  cases timestamp with
  | none => norm_num [scoreTemporalConsistency, inUnit]
  | some ts =>
    simp only [scoreTemporalConsistency, inUnit]
    split_ifs <;> norm_num

/-- The bound package claimed by C7: overall score and all six per-feature
scores lie in `[0, 1]`. -/
def credBoundsOk (res : CredibilityResult) : Prop :=
  inUnit res.score ∧
  inUnit res.features.source_reliability ∧
  inUnit res.features.has_media ∧
  inUnit res.features.gps_accuracy ∧
  inUnit res.features.text_quality ∧
  inUnit res.features.temporal_consistency ∧
  inUnit res.features.past_accuracy

/-- Claim C7: for every input — any source string, text, coordinates,
decimal precisions, clock time, optional timestamp, optional media path,
optional GPS accuracy, and any outcome of the regex feature tests — the
credibility scorer returns an overall score in `[0, 1]` and each of the six
per-feature scores it combines is itself in `[0, 1]`. -/
theorem C7_credibility_bounds (source text : String) (lat lon : ℚ)
    (latPrec lonPrec : ℕ) (now : ℚ) (timestamp : Option ℚ)
    (mediaPath : Option String) (gpsAccuracy : Option ℚ)
    (spamMatches infoMatches : List Bool) :
    credBoundsOk (calculateCredibility source text lat lon latPrec lonPrec now
      timestamp mediaPath gpsAccuracy spamMatches infoMatches) := by
  obtain ⟨h1a, h1b⟩ := scoreSourceReliability_inUnit source
  obtain ⟨h2a, h2b⟩ := scoreMediaPresence_inUnit mediaPath
  obtain ⟨h3a, h3b⟩ := scoreGpsAccuracy_inUnit lat lon latPrec lonPrec gpsAccuracy
  obtain ⟨h4a, h4b⟩ := scoreTextQuality_inUnit text spamMatches infoMatches
  obtain ⟨h5a, h5b⟩ := scoreTemporalConsistency_inUnit now timestamp
  refine ⟨⟨?_, ?_⟩, ⟨h1a, h1b⟩, ⟨h2a, h2b⟩, ⟨h3a, h3b⟩, ⟨h4a, h4b⟩, ⟨h5a, h5b⟩,
    by norm_num [calculateCredibility, scorePastAccuracy, inUnit]⟩
  · simp only [calculateCredibility, scorePastAccuracy]
    rw [if_pos (by norm_num)]
    apply div_nonneg
    · linarith
    · norm_num
  · simp only [calculateCredibility, scorePastAccuracy]
    rw [if_pos (by norm_num)]
    rw [div_le_one (by norm_num)]
    linarith

/-! ## C10 — combined similarity is symmetric -/

theorem haversineDistance_comm (lat1 lon1 lat2 lon2 : ℝ) :
    haversineDistance lat1 lon1 lat2 lon2 = haversineDistance lat2 lon2 lat1 lon1 := by
  simp only [haversineDistance]
  have h1 : ∀ x y : ℝ, Real.sin ((x - y) / 2) ^ 2 = Real.sin ((y - x) / 2) ^ 2 := by
    intro x y
    rw [show (x - y) / 2 = -((y - x) / 2) by ring, Real.sin_neg, neg_sq]
  have harg :
      Real.sin ((radians lat2 - radians lat1) / 2) ^ 2 +
        Real.cos (radians lat1) * Real.cos (radians lat2) *
          Real.sin ((radians lon2 - radians lon1) / 2) ^ 2 =
      Real.sin ((radians lat1 - radians lat2) / 2) ^ 2 +
        Real.cos (radians lat2) * Real.cos (radians lat1) *
          Real.sin ((radians lon1 - radians lon2) / 2) ^ 2 := by
    rw [h1 (radians lat2) (radians lat1), h1 (radians lon2) (radians lon1)]
    ring
  rw [harg]

theorem spatialSimilarity_comm (lat1 lon1 lat2 lon2 : ℝ) :
    spatialSimilarity lat1 lon1 lat2 lon2 = spatialSimilarity lat2 lon2 lat1 lon1 := by
  simp only [spatialSimilarity]
  rw [haversineDistance_comm]

theorem temporalSimilarity_comm (t1 t2 : Option ℚ) :
    temporalSimilarity t1 t2 = temporalSimilarity t2 t1 := by
  match t1, t2 with
  | none, none => rfl
  | none, some b => rfl
  | some a, none => rfl
  | some a, some b =>
    simp only [temporalSimilarity]
    rw [abs_sub_comm]

theorem jaccardSimilarity_comm (s t : String) :
    jaccardSimilarity s t = jaccardSimilarity t s := by
  simp only [jaccardSimilarity]
  by_cases h1 : s.isEmpty <;> by_cases h2 : t.isEmpty <;> simp only [h1, h2] <;>
    try simp
  by_cases e1 : dedupeTokenize (pyLower s) = [] <;>
    by_cases e2 : dedupeTokenize (pyLower t) = [] <;>
    simp [e1, e2, Finset.inter_comm, Finset.union_comm]

/-- Claim C10: pairwise combined similarity is symmetric — for every two
reports (any coordinates, any texts, timestamps present or missing),
`combined_similarity(a, b) = combined_similarity(b, a)`, so crossing the 0.6
duplicate threshold does not depend on report order. -/
theorem C10_combined_similarity_symm (a b : DedupReport) :
    combinedSimilarity a b = combinedSimilarity b a ∧
    ((0.6 : ℝ) ≤ combinedSimilarity a b ↔ (0.6 : ℝ) ≤ combinedSimilarity b a) := by
  have h : combinedSimilarity a b = combinedSimilarity b a := by
    simp only [combinedSimilarity]
    rw [spatialSimilarity_comm, temporalSimilarity_comm, jaccardSimilarity_comm]
  exact ⟨h, by rw [h]⟩

/-! ## C1 — administrator status is not pinned -/

/-- A stored hazard event that an administrator has validated as
`approved`. -/
def eApproved : Event :=
  { id := 5, hazard_type := "flood", confidence := 0.7, severity := 3,
    status := "approved", centroid_lat := q05, centroid_lon := q05,
    evidence_json := "\x7b\x7d" }

/-- The citizen volume factor at one report is at most 0.95. -/
theorem volumeFactor_citizen_one_le :
    volumeFactor 1 "citizen" ≤ (0.95 : ℝ) := by
  rw [volumeFactor]
  rw [if_neg (by norm_num), if_neg (by decide), if_pos (by decide)]
  exact min_le_left _ _

/-- The fused confidence of the single low-confidence citizen report `r2c`
stays below the 0.3 pending threshold. -/
theorem calcWeightedConfidence_r2c_lt :
    calcWeightedConfidence [r2c] < (0.3 : ℝ) := by
  have hl : pyLower "citizen" = "citizen" := by decide
  have hmbc : mediaBoostedConfidence r2c = q008 * q05 := by
    simp [mediaBoostedConfidence, r2c]
  have hg : groupBySource [r2c] = [("citizen", [q008 * q05])] := by
    simp only [groupBySource, List.foldl_cons, List.foldl_nil, addToGroups]
    rw [show pyLower r2c.source = "citizen" from by decide, hmbc]
  have hmean : listMean [q008 * q05] = 1/25 := by
    norm_num [listMean, q008_eq, q05_eq]
  have hcounts : mediaCounts [r2c] = (0, 0) := by decide
  have hdiv : diversityBoost ["citizen"] 1 = 1 := by
    norm_num [diversityBoost]
  have hmedia : mediaEvidenceBoost 0 0 = 1 := by norm_num [mediaEvidenceBoost]
  have hw : fusionSourceWeight "citizen" = 3/5 := by
    norm_num [fusionSourceWeight, (by decide : ¬("citizen" = "incois")),
      (by decide : ¬("citizen" = "lora"))]
  rw [calcWeightedConfidence]
  simp only [List.isEmpty_cons, Bool.false_eq_true, if_false, hg,
    List.map_cons, List.map_nil, List.sum_cons, List.sum_nil,
    List.length_cons, List.length_nil, hmean, hcounts, hdiv, hmedia, hw]
  norm_num
  nlinarith [volumeFactor_citizen_one_le]

/-- Counterexample to claim C1: an event whose status the administrator has
set to `approved` does not keep that status through the next fusion pass —
`_process_group_fusion` overwrites `status` with the fusion result. Fusing
the group consisting of the single citizen report `r2c` produces status
`review`, and the update step writes it over `approved`. -/
theorem C1_counterexample :
    eApproved.status = "approved" ∧
    (fuseReports [r2c] (getGroupStatistics [r2c])).map
      (fun fr => (applyFusionUpdate eApproved fr).status) = .ok "review" ∧
    ("review" : String) ≠ "approved" := by
  have hl : pyLower "citizen" = "citizen" := by decide
  have hsev : calcWeightedSeverity [r2c] = .ok 3 := by
    simp only [calcWeightedSeverity, List.isEmpty_cons, Bool.false_eq_true,
      if_false, List.map_cons, List.map_nil, r2c, hl, fusionSourceWeight,
      zmin, zmax, q05_eq, q008_eq]
    norm_num [pyRound, Int.fract,
      (by decide : ¬("citizen" = "incois")), (by decide : ¬("citizen" = "lora"))]
  have hht : determineConsensusHazardType [r2c] = "flood" := by
    rw [determineConsensusHazardType]
    simp only [List.isEmpty_cons, Bool.false_eq_true, if_false]
    have hb : buildVotes [r2c] = [("flood", voteWeight r2c)] := rfl
    rw [hb]
    simp [argmaxFirst]
  have hlora : ([r2c].any fun r => pyLower r.source == "lora") = false := by decide
  have hconf := calcWeightedConfidence_r2c_lt
  have hds : determineStatus (calcWeightedConfidence [r2c]) "flood" false =
      "review" := by
    rw [determineStatus]
    rw [if_neg (by decide), if_neg (by intro hc; linarith),
      if_neg (by intro hc; linarith), if_neg (by intro hc; linarith)]
  refine ⟨rfl, ?_, by decide⟩
  simp only [fuseReports, List.isEmpty_cons, Bool.false_eq_true, if_false, hsev,
    hht, hlora, hds, Except.map, applyFusionUpdate]

/-- Claim C1 as amended: every fusion pass overwrites the event's status with
the fusion-determined status, and `determine_status` only ever returns one of
`emergency`, `confirmed`, `pending`, `review` — never `approved` or
`rejected` — so the administrator's decision survives only until the next
fuse of the group. -/
theorem C1_fusion_overwrites_status :
    (∀ (e : Event) (fr : FusionResult),
      (applyFusionUpdate e fr).status = fr.status) ∧
    ∀ (c : ℝ) (ht : String) (hasLora : Bool),
      determineStatus c ht hasLora = "emergency" ∨
      determineStatus c ht hasLora = "confirmed" ∨
      determineStatus c ht hasLora = "pending" ∨
      determineStatus c ht hasLora = "review" := by
  refine ⟨fun e fr => rfl, fun c ht hasLora => ?_⟩
  rw [determineStatus]
  split_ifs <;> simp

/-! ## C6 — monotone volume -/

/-- Dict lookup into the `source_groups` association list. -/
def lookupGroup (gs : List (String × List ℚ)) (s : String) : Option (List ℚ) :=
  (gs.find? fun g => g.1 == s).map Prod.snd

/-- A successful lookup splices the dict: the entry is the first with that
key, and `addToGroups` extends exactly that entry's list. -/
theorem lookupGroup_splice (gs : List (String × List ℚ)) (s : String)
    (l : List ℚ) (h : lookupGroup gs s = some l) :
    ∃ pre post, gs = pre ++ (s, l) :: post ∧
      (∀ p ∈ pre, (p.1 == s) = false) ∧
      ∀ c, addToGroups gs s c = pre ++ (s, l ++ [c]) :: post := by
  induction gs with
  | nil => simp [lookupGroup] at h
  | cons hd tl ih =>
    obtain ⟨k0, l0⟩ := hd
    by_cases hk : k0 = s
    · subst hk
      have hl0 : l0 = l := by
        simpa [lookupGroup, List.find?] using h
      subst hl0
      exact ⟨[], tl, by simp, by simp, fun c => by simp [addToGroups]⟩
    · have hb : (k0 == s) = false := beq_eq_false_iff_ne.mpr hk
      have htl : lookupGroup tl s = some l := by
        simpa [lookupGroup, List.find?, hb] using h
      obtain ⟨pre, post, hsplit, hpre, hadd⟩ := ih htl
      refine ⟨(k0, l0) :: pre, post, by simp [hsplit], ?_, fun c => ?_⟩
      · intro p hp
        rcases List.mem_cons.mp hp with rfl | hp
        · exact hb
        · exact hpre p hp
      · simp only [addToGroups, hb, Bool.false_eq_true, if_false, hadd c,
          List.cons_append]

/-- Appending one report extends the source-group dict at that report's
(lowercased) source with its media-boosted confidence. -/
theorem groupBySource_append_one (rs : List FReport) (r : FReport) :
    groupBySource (rs ++ [r]) =
      addToGroups (groupBySource rs) (pyLower r.source)
        (mediaBoostedConfidence r) := by
  rw [groupBySource, groupBySource, List.foldl_append, List.foldl_cons,
    List.foldl_nil]

/-- Appending the running mean to a list preserves its mean. -/
theorem listMean_append_mean (l : List ℚ) :
    listMean (l ++ [listMean l]) = listMean l := by
  rcases l with _ | ⟨x, xs⟩
  · simp [listMean]
  · have hn : ((xs.length : ℚ) + 1) ≠ 0 := by positivity
    simp only [listMean, List.sum_append, List.length_append, List.sum_cons,
      List.sum_nil, List.length_cons, List.length_nil, add_zero]
    push_cast
    field_simp
    ring

/-- Every list stored in the source-group dict is nonempty. -/
theorem groupBySource_entry_ne_nil (reports : List FReport) :
    ∀ g ∈ groupBySource reports, g.2 ≠ [] := by
  have hadd : ∀ (gs : List (String × List ℚ)) (s : String) (c : ℚ),
      (∀ g ∈ gs, g.2 ≠ []) → ∀ g ∈ addToGroups gs s c, g.2 ≠ [] := by
    intro gs
    induction gs with
    | nil => intro s c _ g hg; simp [addToGroups] at hg; simp [hg]
    | cons hd tl ih =>
      intro s c hinv g hg
      rw [addToGroups] at hg
      split at hg
      · rcases List.mem_cons.mp hg with rfl | hg
        · simp
        · exact hinv _ (List.mem_cons_of_mem _ hg)
      · rcases List.mem_cons.mp hg with rfl | hg
        · exact hinv _ (List.mem_cons_self _ _)
        · exact ih s c (fun g hgtl => hinv _ (List.mem_cons_of_mem _ hgtl)) g hg
  rw [groupBySource]
  have : ∀ (rs : List FReport) (init : List (String × List ℚ)),
      (∀ g ∈ init, g.2 ≠ []) →
      ∀ g ∈ rs.foldl
        (fun gs r => addToGroups gs (pyLower r.source) (mediaBoostedConfidence r))
        init, g.2 ≠ [] := by
    intro rs
    induction rs with
    | nil => intro init h; simpa using h
    | cons a t ih =>
      intro init h
      rw [List.foldl_cons]
      exact ih _ (hadd _ _ _ h)
  exact this reports [] (by simp)

theorem fusionSourceWeight_pos (s : String) : 0 < fusionSourceWeight s := by
  rw [fusionSourceWeight]
  split_ifs <;> norm_num

theorem diversityBoost_nonneg (sources : List String) (n : ℕ) :
    0 ≤ diversityBoost sources n := by
  simp only [diversityBoost, qmin]
  split_ifs <;> norm_num

theorem mediaEvidenceBoost_nonneg (v t : ℕ) : 0 ≤ mediaEvidenceBoost v t := by
  simp only [mediaEvidenceBoost, qmin]
  split_ifs <;> positivity

/-- The volume factor never decreases when one more report of the same source
arrives. -/
theorem volumeFactor_mono (s : String) (n : ℕ) (hn : 1 ≤ n) :
    volumeFactor n s ≤ volumeFactor (n + 1) s := by
  have h0 : ¬(n = 0) := by omega
  have h1 : ¬(n + 1 = 0) := by omega
  have hcast : ((n : ℝ)) ≤ ((n + 1 : ℕ) : ℝ) := by push_cast; linarith
  have hx : (0 : ℝ) < (n : ℝ) + 1 := by positivity
  have hlog : Real.logb 10 ((n : ℝ) + 1) ≤ Real.logb 10 (((n + 1 : ℕ) : ℝ) + 1) := by
    apply Real.logb_le_logb_of_le (by norm_num) hx
    push_cast
    linarith
  rw [volumeFactor, volumeFactor, if_neg h0, if_neg h1]
  split_ifs
  · refine min_le_min (le_refl _) ?_
    linarith
  · have hs : Real.sqrt ((n : ℝ) / 10) ≤ Real.sqrt (((n + 1 : ℕ) : ℝ) / 10) := by
      apply Real.sqrt_le_sqrt
      push_cast
      linarith
    refine min_le_min (le_refl _) ?_
    have h2 : min (0.45 : ℝ) (0.1 * Real.sqrt ((n : ℝ) / 10)) ≤
        min (0.45 : ℝ) (0.1 * Real.sqrt (((n + 1 : ℕ) : ℝ) / 10)) :=
      min_le_min (le_refl _) (by linarith)
    linarith
  · have hs : Real.sqrt ((n : ℝ) / 5) ≤ Real.sqrt (((n + 1 : ℕ) : ℝ) / 5) := by
      apply Real.sqrt_le_sqrt
      push_cast
      linarith
    refine min_le_min (le_refl _) ?_
    have h2 : min (0.35 : ℝ) (0.08 * Real.sqrt ((n : ℝ) / 5)) ≤
        min (0.35 : ℝ) (0.08 * Real.sqrt (((n + 1 : ℕ) : ℝ) / 5)) :=
      min_le_min (le_refl _) (by linarith)
    linarith
  · refine min_le_min (le_refl _) ?_
    linarith

/-- Claim C6 (monotone volume): for a group with a fixed set of sources and
fixed per-report confidences — the appended report carries no media and its
media-boosted confidence `nlp_conf · credibility` equals the current mean of
its source's confidences, so the confidence profile is unchanged — appending
one more report of a source already present never decreases the fused
confidence of the next single fuse step. -/
theorem C6_monotone_volume (reports : List FReport) (newR : FReport)
    (l : List ℚ)
    (hsrc : lookupGroup (groupBySource reports) (pyLower newR.source) = some l)
    (hmedia : newR.has_media = false)
    (hconf : mediaBoostedConfidence newR = listMean l)
    (hpos : 0 ≤ listMean l) :
    calcWeightedConfidence reports ≤ calcWeightedConfidence (reports ++ [newR]) := by
  have hne : reports ≠ [] := by
    intro h
    subst h
    simp [groupBySource, lookupGroup] at hsrc
  obtain ⟨pre, post, hg, hpre, hadd⟩ :=
    lookupGroup_splice _ _ _ hsrc
  have hg' : groupBySource (reports ++ [newR]) =
      pre ++ (pyLower newR.source, l ++ [listMean l]) :: post := by
    rw [groupBySource_append_one, hconf, hadd]
  have hlne : l ≠ [] :=
    groupBySource_entry_ne_nil reports (pyLower newR.source, l)
      (by rw [hg]; exact List.mem_append_right _ (List.mem_cons_self _ _))
  have hlen : 1 ≤ l.length := List.length_pos.mpr hlne
  have hie : reports.isEmpty = false := by
    cases reports with
    | nil => exact absurd rfl hne
    | cons a t => rfl
  have hie2 : (reports ++ [newR]).isEmpty = false := by
    cases reports with
    | nil => exact absurd rfl hne
    | cons a t => rfl
  have hmc : mediaCounts (reports ++ [newR]) = mediaCounts reports := by
    simp [mediaCounts, List.filter_append, hmedia]
  rw [calcWeightedConfidence, calcWeightedConfidence]
  simp only [hie, hie2, Bool.false_eq_true, if_false, hg, hg', hmc]
  have hkeys : (pre ++ (pyLower newR.source, l ++ [listMean l]) :: post).map
      Prod.fst = (pre ++ (pyLower newR.source, l) :: post).map Prod.fst := by
    simp
  have hlen2 : (pre ++ (pyLower newR.source, l ++ [listMean l]) :: post).length =
      (pre ++ (pyLower newR.source, l) :: post).length := by
    simp
  have htw : ((pre ++ (pyLower newR.source, l ++ [listMean l]) :: post).map
        fun g => fusionSourceWeight g.1).sum =
      ((pre ++ (pyLower newR.source, l) :: post).map
        fun g => fusionSourceWeight g.1).sum := by
    simp
  have htwpos : 0 < ((pre ++ (pyLower newR.source, l) :: post).map
      fun g => fusionSourceWeight g.1).sum := by
    apply List.sum_pos
    · intro x hx
      obtain ⟨g, _, rfl⟩ := List.mem_map.mp hx
      exact fusionSourceWeight_pos g.1
    · simp
  have htc : ((pre ++ (pyLower newR.source, l) :: post).map fun g =>
        (listMean g.2 : ℝ) * volumeFactor g.2.length g.1 *
          (fusionSourceWeight g.1 : ℝ)).sum ≤
      ((pre ++ (pyLower newR.source, l ++ [listMean l]) :: post).map fun g =>
        (listMean g.2 : ℝ) * volumeFactor g.2.length g.1 *
          (fusionSourceWeight g.1 : ℝ)).sum := by
    simp only [List.map_append, List.sum_append, List.map_cons, List.sum_cons,
      listMean_append_mean, List.length_append, List.length_cons,
      List.length_nil]
    have hvf := volumeFactor_mono (pyLower newR.source) l.length hlen
    have hm : (0 : ℝ) ≤ (listMean l : ℝ) := by exact_mod_cast hpos
    have hw : (0 : ℝ) ≤ (fusionSourceWeight (pyLower newR.source) : ℝ) := by
      exact_mod_cast (fusionSourceWeight_pos (pyLower newR.source)).le
    have hstep := mul_le_mul_of_nonneg_right
      (mul_le_mul_of_nonneg_left hvf hm) hw
    linarith
  rw [htw, hkeys, hlen2]
  have hD : (0 : ℝ) ≤
      ((diversityBoost ((pre ++ (pyLower newR.source, l) :: post).map Prod.fst)
        (pre ++ (pyLower newR.source, l) :: post).length : ℚ) : ℝ) := by
    exact_mod_cast diversityBoost_nonneg _ _
  have hM : (0 : ℝ) ≤
      ((mediaEvidenceBoost (mediaCounts reports).2 (mediaCounts reports).1 : ℚ) : ℝ) := by
    exact_mod_cast mediaEvidenceBoost_nonneg _ _
  apply min_le_min (le_refl _)
  apply mul_le_mul_of_nonneg_right _ hM
  apply mul_le_mul_of_nonneg_right _ hD
  rw [if_pos htwpos, if_pos htwpos]
  have hc : (0 : ℝ) < ((((pre ++ (pyLower newR.source, l) :: post).map
      fun g => fusionSourceWeight g.1).sum : ℚ) : ℝ) := by
    exact_mod_cast htwpos
  exact (div_le_div_iff_of_pos_right hc).mpr htc

/-- Witness for C6 at a singleton citizen group, appending an identical
report. -/
theorem C6_monotone_volume_witness :
    (lookupGroup (groupBySource [r2c]) (pyLower r2c.source) =
        some [q008 * q05] ∧
      r2c.has_media = false ∧
      mediaBoostedConfidence r2c = listMean [q008 * q05] ∧
      0 ≤ listMean [q008 * q05]) ∧
    calcWeightedConfidence [r2c] ≤ calcWeightedConfidence ([r2c] ++ [r2c]) :=
  ⟨⟨rfl, rfl, by simp [mediaBoostedConfidence, r2c, listMean],
    by norm_num [listMean, q008_eq, q05_eq]⟩,
   C6_monotone_volume [r2c] r2c [q008 * q05] rfl rfl
     (by simp [mediaBoostedConfidence, r2c, listMean])
     (by norm_num [listMean, q008_eq, q05_eq])⟩

end OceanGuard
